import Mathlib

/-!
Shallow embedding of `src/bundler.js`, a minimal module bundler.

The source builds a dependency graph of Assets from a single entry file
(`createGraph`), each Asset carrying an id drawn from a process-wide mutable
counter (`let ID = 0`), and emits a single self-executing program text
(`bundle`) embedding every module plus a small loader runtime.

Modelling decisions, each traceable to the source:
* The process-wide mutable counter `ID` is threaded explicitly: `createAsset`
  takes the current counter value and returns the incremented one;
  `createGraph` takes the counter value at the time of the invocation and
  returns the final one.  A "second invocation in the same process" is an
  invocation receiving the counter returned by the first.
* The filesystem is a finite map from directory names to listings and from
  file paths to contents (`fs.readdirSync` / `fs.readFileSync`, both of which
  may throw; a throw is modelled as `none`).
* The external parser (babylon) and transformer (babel) are collaborators:
  file content is modelled as either a well-formed module (its parse result:
  the list of import-declaration specifiers plus an opaque body) or malformed
  content on which the parser throws.  The transform is modelled as a pure
  function of the parse result, as the spec prescribes.
* Thrown build-time exceptions are modelled with `Except`: `BuildError.loadError`
  is the failure when `readFileGuessExtension` returned `null` (in the source
  the throw surfaces from `babylon.parse(null)`, whose cause is the
  unavailable content), `BuildError.parseError` the parser's throw on
  malformed content.
* The JS `for (const asset of queue)` loop over a growing array is modelled
  as a worklist recursion with fuel; `none` models divergence (a build that
  never terminates), `some` the value the source would compute.
-/

namespace Bundler

/-- Character-list prefix test: `leadMatch pre xs` is true when `pre` is an
initial segment of `xs`.  Used to model the JS `x.indexOf(name) === 0`. -/
def leadMatch : List Char → List Char → Bool
  | [], _ => true
  | _ :: _, [] => false
  | a :: as, b :: bs => a == b && leadMatch as bs

/-- Models the JS test `x.indexOf(name) === 0`: the string `x` starts with
`name`. -/
def startsWithName (x name : String) : Bool :=
  leadMatch name.data x.data

/-- Split a string on the `/` separator (the behaviour of
`String.prototype.split` / Node path segmentation on the strings this
program handles). -/
def splitSlashAux : List Char → List Char → List String
  | [], cur => [String.mk cur.reverse]
  | c :: cs, cur =>
    if c = '/' then String.mk cur.reverse :: splitSlashAux cs []
    else splitSlashAux cs (c :: cur)

/-- Split a path string into its `/`-separated segments. -/
def splitSlash (s : String) : List String :=
  splitSlashAux s.data []

/-- Join segments back with `/`. -/
def joinSlash : List String → String
  | [] => ""
  | [x] => x
  | x :: xs => x ++ "/" ++ joinSlash xs

/-- Node `path.dirname` (POSIX) on the paths this program handles: drop the
last `/`-separated segment; a single-segment path has dirname `"."`. -/
def pathDirname (p : String) : String :=
  let segs := splitSlash p
  if segs.length ≤ 1 then "."
  else
    let d := joinSlash segs.dropLast
    if d = "" then "/" else d

/-- Node `path.parse(p).base`: the final `/`-separated segment of `p`. -/
def parseBase (p : String) : String :=
  (splitSlash p).getLastD ""

/-- Path normalisation as performed by Node `path.join`: drop empty and `"."`
segments, let `".."` cancel the preceding segment (kept when there is
nothing to cancel, as in a relative path that escapes upward). -/
def normSegs : List String → List String → List String
  | [], acc => acc.reverse
  | s :: rest, acc =>
    if s = "" || s = "." then normSegs rest acc
    else if s = ".." then
      match acc with
      | [] => normSegs rest [s]
      | a :: t => if a = ".." then normSegs rest (s :: a :: t) else normSegs rest t
    else normSegs rest (s :: acc)

/-- Is the path absolute (leading `/`)? -/
def isAbsPath (s : String) : Bool :=
  match s.data with
  | c :: _ => c == '/'
  | [] => false

/-- Node `path.join(a, b)` (POSIX): concatenate with `/` and normalise. -/
def pathJoin (a b : String) : String :=
  let joined := a ++ "/" ++ b
  let body := joinSlash (normSegs (splitSlash joined) [])
  if isAbsPath joined then
    (if body = "" then "/" else "/" ++ body)
  else if body = "" then "." else body

/-- The parse result of a well-formed module file: the import-declaration
specifiers in source order (what `traverse`'s `ImportDeclaration` visitor
collects) and the opaque rest of the program. -/
structure Ast where
  imports : List String
  body : String
  deriving Repr, DecidableEq

/-- The content of a file as far as the external parser is concerned: either
a well-formed module (its parse) or malformed text on which the parser
throws. -/
inductive Content where
  | wellFormed (ast : Ast)
  | malformed
  deriving Repr, DecidableEq

/-- The filesystem collaborator: directory listings (in listing order) and
file contents.  A missing key models a read that throws (absent or
unreadable directory / file — including a directory entry that is itself a
subdirectory and hence not readable as a file). -/
structure FS where
  dirs : List (String × List String)
  files : List (String × Content)

/-- `fs.readdirSync`: `none` models the throw on an unreadable directory. -/
def FS.readdir (fs : FS) (d : String) : Option (List String) :=
  (fs.dirs.find? (fun q => q.1 == d)).map (fun q => q.2)

/-- `fs.readFileSync`: `none` models the throw on an unreadable path. -/
def FS.readFile (fs : FS) (p : String) : Option Content :=
  (fs.files.find? (fun q => q.1 == p)).map (fun q => q.2)

/-- `readFileGuessExtension` from the source: list the containing directory,
take the first entry whose name starts with the path's base name, and read
it; any throw is caught and turned into `null` (`none`).  When no entry
matches, `files.find(...)` is `undefined` and the source reads the path
`dirname + "/" + undefined`, i.e. the file literally named `"undefined"`
in that directory (JS string coercion). -/
def readFileGuessExtension (fs : FS) (p : String) : Option Content :=
  match FS.readdir fs (pathDirname p) with
  | none => none
  | some files =>
    let name := parseBase p
    let chosen :=
      match files.find? (fun x => startsWithName x name) with
      | some f => f
      | none => "undefined"
    FS.readFile fs (pathDirname p ++ "/" ++ chosen)

/-- The external babylon parser applied to what `readFileGuessExtension`
returned: throws (`none`) on malformed content. -/
def babylonParse : Content → Option Ast
  | .wellFormed ast => some ast
  | .malformed => none

/-- The external babel transform (`babel.transformFromAstSync` with
`preset-env`), treated as a pure function of the parse result per the spec's
collaborator contract. -/
def babelTransform (ast : Ast) : String :=
  "\"use strict\";" ++ ast.body

/-- Build-time failures (thrown exceptions) of `createAsset`. -/
inductive BuildError where
  | loadError (filename : String)
  | parseError (filename : String)
  deriving Repr, DecidableEq

/-- One source file's build artifact, as returned by `createAsset`.
`mapping` is `none` on a freshly built Asset; `createGraph` sets it when the
Asset reaches the front of the queue.  The mapping is a JS object keyed by
specifier strings, modelled as an association list in key-insertion order. -/
structure Asset where
  id : Nat
  filename : String
  dependencies : List String
  code : String
  mapping : Option (List (String × Nat)) := none
  deriving Repr, DecidableEq

/-- `createAsset` from the source: load the content (the throw from
`babylon.parse(null)` on unavailable content is `loadError`), parse it,
collect the import-declaration specifiers, allocate the next id from the
counter, transform, and return the Asset with `mapping` unset.  The counter
is the source's process-wide `ID`, threaded explicitly. -/
def createAsset (fs : FS) (ctr : Nat) (filename : String) :
    Except BuildError (Asset × Nat) :=
  match readFileGuessExtension fs filename with
  | none => .error (.loadError filename)
  | some content =>
    match babylonParse content with
    | none => .error (.parseError filename)
    | some ast =>
      .ok ({ id := ctr, filename := filename, dependencies := ast.imports,
             code := babelTransform ast, mapping := none }, ctr + 1)

/-- Does the JS object already have this key? -/
def hasKey (m : List (String × Nat)) (k : String) : Bool :=
  m.any (fun p => p.1 == k)

/-- JS object property assignment `m[k] = v`: updates the value in place
when the key is present (keeping key order), otherwise appends the new key
(JS objects keep string keys in insertion order). -/
def jsInsert (m : List (String × Nat)) (k : String) (v : Nat) :
    List (String × Nat) :=
  if hasKey m k then m.map (fun p => if p.1 == k then (k, v) else p)
  else m ++ [(k, v)]

/-- JS object property read `m[k]`: `none` models `undefined`. -/
def jsLookup (m : List (String × Nat)) (k : String) : Option Nat :=
  (m.find? (fun p => p.1 == k)).map (fun p => p.2)

/-- The `asset.dependencies.forEach` body of `createGraph`: for each
specifier in order, resolve it against the importing Asset's dirname, build
a fresh child Asset, record `mapping[specifier] = child.id`, and collect the
children (they are pushed onto the queue by the caller). -/
def processDeps (fs : FS) (dirname : String) :
    List String → List (String × Nat) → Nat →
    Except BuildError (List (String × Nat) × List Asset × Nat)
  | [], m, ctr => .ok (m, [], ctr)
  | d :: ds, m, ctr =>
    match createAsset fs ctr (pathJoin dirname d) with
    | .error e => .error e
    | .ok (child, ctr1) =>
      match processDeps fs dirname ds (jsInsert m d child.id) ctr1 with
      | .error e => .error e
      | .ok (m2, rest, ctr2) => .ok (m2, child :: rest, ctr2)

/-- The `for (const asset of queue)` loop of `createGraph`: the iteration
index splits the live array into the processed part (`done`) and the part
still to visit (`pending`); children are appended at the back.  Fuel
exhaustion (`none`) models a traversal that never terminates (cyclic
imports). -/
def graphLoop (fs : FS) :
    Nat → List Asset → List Asset → Nat →
    Option (Except BuildError (List Asset × Nat))
  | 0, _, _, _ => none
  | _ + 1, done, [], ctr => some (.ok (done, ctr))
  | fuel + 1, done, a :: rest, ctr =>
    match processDeps fs (pathDirname a.filename) a.dependencies [] ctr with
    | .error e => some (.error e)
    | .ok (m, children, ctr1) =>
      graphLoop fs fuel (done ++ [{ a with mapping := some m }])
        (rest ++ children) ctr1

/-- `createGraph` from the source: build the entry Asset, then run the queue
until it is exhausted, returning the full ordered sequence of Assets and the
final value of the process-wide counter. -/
def createGraph (fs : FS) (fuel : Nat) (entry : String) (ctr : Nat) :
    Option (Except BuildError (List Asset × Nat)) :=
  match createAsset fs ctr entry with
  | .error e => some (.error e)
  | .ok (main, ctr1) => graphLoop fs fuel [] [main] ctr1

/-- Join with commas (JSON object member separator). -/
def joinComma : List String → String
  | [] => ""
  | [x] => x
  | x :: xs => x ++ "," ++ joinComma xs

/-- `JSON.stringify(module.mapping)`: the mapping serialised as a JSON object
literal in key order; an unset mapping (`undefined`) stringifies into the
text `undefined` inside the template literal.  The specifier keys this
program handles contain no characters JSON would escape. -/
def jsonStringifyMapping : Option (List (String × Nat)) → String
  | none => "undefined"
  | some m =>
    "\x7b" ++ joinComma (m.map (fun p => "\"" ++ p.1 ++ "\":" ++ Nat.repr p.2))
      ++ "\x7d"

/-- One module's registry entry in the emitted text, exactly the template
literal the source appends to `modules` for each graph element. -/
def moduleChunk (m : Asset) : String :=
  Nat.repr m.id ++ ": [\n        function(require, module, exports) \x7b\n          "
    ++ m.code ++ "\n        \x7d,\n        "
    ++ jsonStringifyMapping m.mapping ++ "\n    ],"

/-- Concatenation of the per-module chunks (the `modules += ...` loop). -/
def concatChunks : List String → String
  | [] => ""
  | x :: xs => x ++ concatChunks xs

/-- The fixed text of the emitted program before the registry entries. -/
def bundleHead : String :=
  "\n    (function(modules) \x7b\n      function require(id) \x7b\n        const [fn, mapping] = modules[id];\n\n        function localRequire(relativePath) \x7b\n          return require(mapping[relativePath]);\n        \x7d\n\n        const module = \x7b exports: \x7b\x7d \x7d;\n\n        fn(localRequire, module, module.exports);\n\n        return module.exports;\n      \x7d\n\n      require(0);\n    \x7d)(\x7b"

/-- The fixed text of the emitted program after the registry entries. -/
def bundleTail : String :=
  "\x7d)\n  "

/-- `bundle` from the source: the registry literal built from the graph in
order, spliced into the fixed loader-runtime template. -/
def bundle (graph : List Asset) : String :=
  bundleHead ++ concatChunks (graph.map moduleChunk) ++ bundleTail

/-- The whole build as run at the bottom of the source file: build the graph,
then emit the bundle text.  An error during the graph build propagates and
no bundle text exists. -/
def buildAndBundle (fs : FS) (fuel : Nat) (entry : String) (ctr : Nat) :
    Option (Except BuildError String) :=
  (createGraph fs fuel entry ctr).map (fun r => r.map (fun g => bundle g.1))

/-! ## The emitted loader runtime

The bundle text embeds a fixed loader: `require(id)` looks the module up in
the registry, constructs a fresh `module` object with an empty `exports`,
builds a `localRequire` that resolves specifiers through this module's
mapping only, runs the body, and returns `module.exports`.  A module body is
modelled by the sequence of specifiers it passes to `require` while it runs
(babel compiles each import declaration into such a call, and a body may
also contain hand-written `require` calls).  Freshness of the `exports`
object is modelled by an allocation counter: each `require` call returns the
address of a newly allocated exports object, and an execution log records
each body run. -/

/-- One registry entry of the emitted bundle: the specifiers the module body
requires while executing, and the module's specifier-to-id mapping. -/
structure RTModule where
  requires : List String
  mapping : List (String × Nat)
  deriving Repr, DecidableEq

/-- Runtime state of the loader model: the next fresh address for an
`exports` object, and the log of module ids whose bodies have run, in
order. -/
structure RTState where
  nextAddr : Nat
  execLog : List Nat
  deriving Repr, DecidableEq

/-- Runtime failures of the emitted loader: `lookupError` models the JS
`TypeError` thrown when `modules[id]` is `undefined` — in particular when
`localRequire` was given a specifier absent from the module's mapping, so
that `require(mapping[relativePath])` is `require(undefined)`.  `outOfFuel`
is the modelling artifact for non-terminating recursion. -/
inductive RunErr where
  | lookupError
  | outOfFuel
  deriving Repr, DecidableEq

/-- Registry lookup `modules[id]`. -/
def lookupModule (reg : List (Nat × RTModule)) (id : Nat) : Option RTModule :=
  (reg.find? (fun q => q.1 == id)).map (fun q => q.2)

/-- Run a module body's `require` calls in order through `localRequire`: each
specifier is looked up in this module's mapping and the resolved id is
required recursively (`req`); an unmapped specifier resolves to `undefined`
and the nested `require(undefined)` throws. -/
def runRequires (req : Nat → RTState → Except RunErr (Nat × RTState))
    (mp : List (String × Nat)) :
    List String → RTState → Except RunErr RTState
  | [], st => .ok st
  | s :: rest, st =>
    match jsLookup mp s with
    | none => .error .lookupError
    | some cid =>
      match req cid st with
      | .error e => .error e
      | .ok (_, st1) => runRequires req mp rest st1

/-- The emitted `require(id)`: look the module up, allocate a fresh `module`
object with an empty `exports` (the fresh address), log the body execution,
run the body's requires through `localRequire`, and return the fresh
exports.  No cache is consulted or written anywhere. -/
def requireRT (reg : List (Nat × RTModule)) :
    Nat → Nat → RTState → Except RunErr (Nat × RTState)
  | 0, _, _ => .error .outOfFuel
  | fuel + 1, id, st =>
    match lookupModule reg id with
    | none => .error .lookupError
    | some m =>
      match runRequires (fun cid s => requireRT reg fuel cid s) m.mapping
          m.requires ⟨st.nextAddr + 1, st.execLog ++ [id]⟩ with
      | .error e => .error e
      | .ok st2 => .ok (st.nextAddr, st2)

/-- The registry the emitted bundle constructs from a graph: each Asset
becomes a module whose body requires one specifier per compiled import
declaration (its `dependencies`, in order) plus any `require` calls written
by hand in that module's source (`handWritten`, keyed by filename; such
calls are invisible to the build-time import traversal), with the Asset's
mapping (an unset mapping stringifies to `undefined`; no lookup on it
succeeds, modelled by the empty table). -/
def registryOfGraph (g : List Asset) (handWritten : String → List String) :
    List (Nat × RTModule) :=
  g.map (fun a => (a.id,
    { requires := a.dependencies ++ handWritten a.filename,
      mapping := a.mapping.getD [] }))

/-- The bundle's unconditional entry call `require(0)` on a fresh runtime. -/
def runBundle (reg : List (Nat × RTModule)) (fuel : Nat) :
    Except RunErr (Nat × RTState) :=
  requireRT reg fuel 0 ⟨0, []⟩

end Bundler

namespace Bundler

/-! ## Concrete build scenarios

Small filesystems exercising the spec's scenarios.  Directory listings are
in listing order; file contents are given as their parse results. -/

/-- Entry module of the linear-chain scenario: imports `"./a"`. -/
def astE3 : Ast := { imports := ["./a"], body := "entry();" }

/-- Module `a` of the linear-chain scenario: imports `"./b"`. -/
def astA3 : Ast := { imports := ["./b"], body := "a();" }

/-- Module `b` of the linear-chain scenario: no imports. -/
def astB3 : Ast := { imports := [], body := "b();" }

/-- Filesystem for the chain scenario: entry imports `"./a"`, which imports
`"./b"`. -/
def fs3 : FS :=
  { dirs := [(".", ["entry.js", "a.js", "b.js"])],
    files := [("./entry.js", .wellFormed astE3),
              ("./a.js", .wellFormed astA3),
              ("./b.js", .wellFormed astB3)] }

/-- The entry Asset the chain build produces. -/
def g3e : Asset :=
  { id := 0, filename := "./entry", dependencies := ["./a"],
    code := babelTransform astE3, mapping := some [("./a", 1)] }

/-- The `a` Asset the chain build produces. -/
def g3a : Asset :=
  { id := 1, filename := "a", dependencies := ["./b"],
    code := babelTransform astA3, mapping := some [("./b", 2)] }

/-- The `b` Asset the chain build produces. -/
def g3b : Asset :=
  { id := 2, filename := "b", dependencies := [],
    code := babelTransform astB3, mapping := some [] }

/-- The registry the chain scenario's bundle constructs (no hand-written
`require` calls in any body). -/
def reg3 : List (Nat × RTModule) :=
  registryOfGraph [g3e, g3a, g3b] (fun _ => [])

/-- Filesystem with a single entry file and no imports. -/
def fs1 : FS :=
  { dirs := [(".", ["entry.js"])],
    files := [("./entry.js", .wellFormed { imports := [], body := "one();" })] }

/-- The Asset a build of `fs1` produces when the process-wide counter is 0. -/
def asset1a : Asset :=
  { id := 0, filename := "./entry", dependencies := [],
    code := babelTransform { imports := [], body := "one();" },
    mapping := some [] }

/-- The Asset a build of `fs1` produces when the process-wide counter is 1
(a second invocation in the same process). -/
def asset1b : Asset := { asset1a with id := 1 }

/-- Filesystem whose entry imports `"./ghost"`, a specifier no directory
entry matches (and no file named `undefined` exists either): the Source
Loader cannot obtain its content. -/
def fs2 : FS :=
  { dirs := [(".", ["entry.js"])],
    files := [("./entry.js",
               .wellFormed { imports := ["./ghost"], body := "entry();" })] }

/-- Entry of the diamond scenario: imports `"./a"` and `"./b"`. -/
def astE4 : Ast := { imports := ["./a", "./b"], body := "entry();" }

/-- Module `a` of the diamond: imports `"./c"`. -/
def astA4 : Ast := { imports := ["./c"], body := "a();" }

/-- Module `b` of the diamond: imports `"./c"`. -/
def astB4 : Ast := { imports := ["./c"], body := "b();" }

/-- Shared target `c` of the diamond: no imports. -/
def astC4 : Ast := { imports := [], body := "c();" }

/-- Diamond filesystem: two different import chains reach the same file
`c`. -/
def fs4 : FS :=
  { dirs := [(".", ["entry.js", "a.js", "b.js", "c.js"])],
    files := [("./entry.js", .wellFormed astE4),
              ("./a.js", .wellFormed astA4),
              ("./b.js", .wellFormed astB4),
              ("./c.js", .wellFormed astC4)] }

/-- Diamond build: the entry Asset. -/
def g4e : Asset :=
  { id := 0, filename := "./entry", dependencies := ["./a", "./b"],
    code := babelTransform astE4, mapping := some [("./a", 1), ("./b", 2)] }

/-- Diamond build: Asset for `a`. -/
def g4a : Asset :=
  { id := 1, filename := "a", dependencies := ["./c"],
    code := babelTransform astA4, mapping := some [("./c", 3)] }

/-- Diamond build: Asset for `b`. -/
def g4b : Asset :=
  { id := 2, filename := "b", dependencies := ["./c"],
    code := babelTransform astB4, mapping := some [("./c", 4)] }

/-- Diamond build: the Asset for `c` built for `a`'s import. -/
def g4c1 : Asset :=
  { id := 3, filename := "c", dependencies := [],
    code := babelTransform astC4, mapping := some [] }

/-- Diamond build: the second, separate Asset for the same file `c`, built
for `b`'s import. -/
def g4c2 : Asset := { g4c1 with id := 4 }

/-- The diamond build's Graph. -/
def g4list : List Asset := [g4e, g4a, g4b, g4c1, g4c2]

/-- Filesystem whose entry imports `"./a"` twice. -/
def fsA : FS :=
  { dirs := [(".", ["entry.js", "a.js"])],
    files := [("./entry.js",
               .wellFormed { imports := ["./a", "./a"], body := "entry();" }),
              ("./a.js", .wellFormed { imports := [], body := "a();" })] }

/-- Duplicate-specifier build: the entry Asset; its mapping holds the id of
the child built for the last occurrence. -/
def gAe : Asset :=
  { id := 0, filename := "./entry", dependencies := ["./a", "./a"],
    code := babelTransform { imports := ["./a", "./a"], body := "entry();" },
    mapping := some [("./a", 2)] }

/-- Duplicate-specifier build: the child built for the first occurrence. -/
def gA1 : Asset :=
  { id := 1, filename := "a", dependencies := [],
    code := babelTransform { imports := [], body := "a();" },
    mapping := some [] }

/-- Duplicate-specifier build: the child built for the second occurrence. -/
def gA2 : Asset := { gA1 with id := 2 }

/-- Filesystem whose entry has no import declarations but whose body
contains a hand-written `require("./ghost")` call. -/
def fs8 : FS :=
  { dirs := [(".", ["entry.js"])],
    files := [("./entry.js",
               .wellFormed { imports := [], body := "require(\"./ghost\");" })] }

/-- The single Asset the `fs8` build produces. -/
def g8e : Asset :=
  { id := 0, filename := "./entry", dependencies := [],
    code := babelTransform { imports := [], body := "require(\"./ghost\");" },
    mapping := some [] }

/-- The registry the `fs8` bundle constructs: module 0's body requires the
hand-written specifier `"./ghost"`, which is absent from its mapping. -/
def reg8 : List (Nat × RTModule) :=
  registryOfGraph [g8e] (fun _ => ["./ghost"])

/-- Module 0 of `reg8` as the runtime sees it. -/
def m8 : RTModule := { requires := ["./ghost"], mapping := [] }

/-- Filesystem where the directory listing is readable and contains a
matching entry for base name `a`, but that entry cannot be read as a file
(it is, say, a subdirectory). -/
def fsC9 : FS :=
  { dirs := [(".", ["a.js"])],
    files := [] }

end Bundler

namespace Bundler

/-! ## Helper lemmas on the JS-object model -/

/-- A mapping has a key iff the key occurs in its key list. -/
theorem hasKey_iff (m : List (String × Nat)) (s : String) :
    hasKey m s = true ↔ s ∈ m.map Prod.fst := by
  simp only [hasKey, List.any_eq_true, List.mem_map, beq_iff_eq]

/-- Updating an existing key in place keeps the key list unchanged. -/
theorem keys_replace (m : List (String × Nat)) (k : String) (v : Nat) :
    (m.map (fun p => if p.1 == k then (k, v) else p)).map Prod.fst
      = m.map Prod.fst := by
  rw [List.map_map]
  apply List.map_congr_left
  intro p _
  by_cases h : p.1 = k
  · simp [Function.comp, h]
  · simp [Function.comp, h]

/-- The key list after a JS property assignment: unchanged when the key was
present, extended at the back otherwise. -/
theorem keys_jsInsert (m : List (String × Nat)) (k : String) (v : Nat) :
    (jsInsert m k v).map Prod.fst
      = if hasKey m k then m.map Prod.fst else m.map Prod.fst ++ [k] := by
  unfold jsInsert
  by_cases h : hasKey m k
  · simp only [h, if_true]
    exact keys_replace m k v
  · simp [h]

/-- Key membership after a JS property assignment. -/
theorem hasKey_jsInsert (m : List (String × Nat)) (k : String) (v : Nat)
    (s : String) :
    hasKey (jsInsert m k v) s = true ↔ (hasKey m s = true ∨ s = k) := by
  rw [hasKey_iff, keys_jsInsert]
  by_cases h : hasKey m k
  · rw [if_pos h, ← hasKey_iff]
    constructor
    · exact Or.inl
    · rintro (hs | rfl)
      · exact hs
      · exact h
  · rw [if_neg h, List.mem_append, List.mem_singleton, ← hasKey_iff]

/-- A JS property assignment keeps the key list duplicate-free. -/
theorem nodupKeys_jsInsert (m : List (String × Nat)) (k : String) (v : Nat)
    (h : (m.map Prod.fst).Nodup) :
    ((jsInsert m k v).map Prod.fst).Nodup := by
  rw [keys_jsInsert]
  by_cases hk : hasKey m k
  · rw [if_pos hk]
    exact h
  · rw [if_neg hk, List.nodup_append]
    refine ⟨h, List.nodup_singleton k, ?_⟩
    intro a ha hb
    rw [List.mem_singleton] at hb
    subst hb
    exact hk ((hasKey_iff m a).2 ha)

/-! ## Helper lemmas on the builder -/

/-- A successful `createAsset` hands out exactly the current counter value as
the new Asset's id and advances the counter by one. -/
theorem createAsset_ok (fs : FS) (ctr : Nat) (f : String) (a : Asset)
    (c2 : Nat) (h : createAsset fs ctr f = .ok (a, c2)) :
    a.id = ctr ∧ c2 = ctr + 1 := by
  unfold createAsset at h
  split at h
  · simp at h
  · split at h
    · simp at h
    · simp only [Except.ok.injEq, Prod.mk.injEq] at h
      obtain ⟨ha, hc⟩ := h
      subst ha
      exact ⟨rfl, hc.symm⟩

/-- The property the spec asserts of every Asset in a completed Graph: its
mapping is set, the mapping's keys are exactly the set of strings in its
dependency list, and each key occurs once. -/
def mappingMatches (a : Asset) : Prop :=
  ∃ m, a.mapping = some m ∧
    (∀ s, hasKey m s = true ↔ s ∈ a.dependencies) ∧
    (m.map Prod.fst).Nodup

/-- What one pass of the dependency loop produces: one child per specifier
occurrence, with consecutive ids continuing the counter, and a mapping whose
keys are the starting mapping's keys plus the specifiers. -/
theorem processDeps_spec (fs : FS) (dir : String) (deps : List String) :
    ∀ (m : List (String × Nat)) (ctr : Nat) (m' : List (String × Nat))
      (ch : List Asset) (ctr' : Nat),
      processDeps fs dir deps m ctr = .ok (m', ch, ctr') →
      ch.map (fun a => a.id) = List.range' ctr ch.length ∧
      ctr' = ctr + ch.length ∧ ch.length = deps.length ∧
      (∀ s, hasKey m' s = true ↔ (hasKey m s = true ∨ s ∈ deps)) ∧
      ((m.map Prod.fst).Nodup → (m'.map Prod.fst).Nodup) := by
  induction deps with
  | nil =>
    intro m ctr m' ch ctr' h
    simp only [processDeps, Except.ok.injEq, Prod.mk.injEq] at h
    obtain ⟨h1, h2, h3⟩ := h
    subst h1; subst h2; subst h3
    simp
  | cons d ds ih =>
    intro m ctr m' ch ctr' h
    simp only [processDeps] at h
    split at h
    · simp at h
    · rename_i child ctr1 hca
      split at h
      · simp at h
      · rename_i m2 rest ctr2 hrec
        obtain ⟨hid, hc1⟩ := createAsset_ok fs ctr _ child ctr1 hca
        obtain ⟨ihids, ihctr, ihlen, ihkeys, ihnodup⟩ :=
          ih (jsInsert m d child.id) ctr1 m2 rest ctr2 hrec
        simp only [Except.ok.injEq, Prod.mk.injEq] at h
        obtain ⟨hm, hch, hctr⟩ := h
        subst hm; subst hch; subst hctr
        subst hc1
        refine ⟨?_, ?_, ?_, ?_, ?_⟩
        · simp only [List.map_cons, List.length_cons, hid, ihids, ihlen]
          rw [List.range'_succ]
        · simp only [List.length_cons]
          omega
        · simp [ihlen]
        · intro s
          rw [ihkeys s, hasKey_jsInsert]
          subst hid
          simp only [List.mem_cons]
          tauto
        · intro hnd
          exact ihnodup (nodupKeys_jsInsert m d child.id hnd)

end Bundler

namespace Bundler

/-- Loop invariant of `createGraph`'s queue processing: on success the ids of
the final Graph are those already present followed by a consecutive run
continuing the counter, the Asset count grows by exactly one per dependency
occurrence, and every already-processed Asset keeps — and every later
Asset gains — a mapping whose keys match its dependencies. -/
theorem graphLoop_spec (fs : FS) :
    ∀ (fuel : Nat) (done pending : List Asset) (ctr : Nat) (g : List Asset)
      (ctr' : Nat),
      graphLoop fs fuel done pending ctr = some (.ok (g, ctr')) →
      (∃ k, g.map (fun a => a.id)
              = (done ++ pending).map (fun a => a.id) ++ List.range' ctr k ∧
            ctr' = ctr + k) ∧
      (g.length + (done.map (fun a => a.dependencies.length)).sum
         = done.length + pending.length
             + (g.map (fun a => a.dependencies.length)).sum) ∧
      ((∀ a ∈ done, mappingMatches a) → ∀ a ∈ g, mappingMatches a) := by
  intro fuel
  induction fuel with
  | zero =>
    intro done pending ctr g ctr' h
    simp [graphLoop] at h
  | succ n ih =>
    intro done pending ctr g ctr' h
    cases pending with
    | nil =>
      simp only [graphLoop, Option.some.injEq, Except.ok.injEq,
        Prod.mk.injEq] at h
      obtain ⟨hg, hc⟩ := h
      subst hg; subst hc
      refine ⟨⟨0, by simp, by simp⟩, by simp, fun hd => hd⟩
    | cons a rest =>
      simp only [graphLoop] at h
      split at h
      · simp at h
      · rename_i m children ctr1 hpd
        obtain ⟨pdids, pdctr, pdlen, pdkeys, pdnodup⟩ :=
          processDeps_spec fs (pathDirname a.filename) a.dependencies
            [] ctr m children ctr1 hpd
        obtain ⟨⟨k, ihmap, ihctr⟩, ihcount, ihmm⟩ :=
          ih (done ++ [{ a with mapping := some m }]) (rest ++ children)
            ctr1 g ctr' h
        refine ⟨⟨k + children.length, ?_, ?_⟩, ?_, ?_⟩
        · rw [ihmap]
          subst pdctr
          simp only [List.map_append, List.map_cons, List.append_assoc,
            List.cons_append, List.nil_append, List.map_nil]
          rw [pdids, List.range'_append_1]
        · subst pdctr
          omega
        · have hdl : ({ a with mapping := some m } : Asset).dependencies.length
              = a.dependencies.length := rfl
          simp only [List.map_append, List.sum_append, List.length_append,
            List.map_cons, List.sum_cons, List.map_nil, List.sum_nil,
            List.length_cons, List.length_nil, hdl] at ihcount ⊢
          omega
        · intro hdone
          refine ihmm ?_
          intro x hx
          rw [List.mem_append] at hx
          rcases hx with hx | hx
          · exact hdone x hx
          · rw [List.mem_singleton] at hx
            subst hx
            refine ⟨m, rfl, ?_, ?_⟩
            · intro s
              have hk := pdkeys s
              have hnil : hasKey ([] : List (String × Nat)) s = false := rfl
              rw [hnil] at hk
              simpa using hk
            · exact pdnodup (by simp)

end Bundler

namespace Bundler

/-- Running a body's requires only ever allocates forward and appends to the
execution log, provided each nested `require` call does. -/
theorem runRequires_mono (req : Nat → RTState → Except RunErr (Nat × RTState))
    (mp : List (String × Nat))
    (hreq : ∀ (cid : Nat) (st : RTState) (a : Nat) (st' : RTState),
        req cid st = .ok (a, st') →
        st.nextAddr < st'.nextAddr ∧ ∃ t, st'.execLog = st.execLog ++ t) :
    ∀ (l : List String) (st st' : RTState),
      runRequires req mp l st = .ok st' →
      st.nextAddr ≤ st'.nextAddr ∧ ∃ t, st'.execLog = st.execLog ++ t := by
  intro l
  induction l with
  | nil =>
    intro st st' h
    simp only [runRequires, Except.ok.injEq] at h
    subst h
    exact ⟨Nat.le_refl _, [], by simp⟩
  | cons s rest ih =>
    intro st st' h
    simp only [runRequires] at h
    split at h
    · simp at h
    · rename_i cid hjs
      split at h
      · simp at h
      · rename_i b st1 hreqok
        obtain ⟨h1, t1, ht1⟩ := hreq cid st b st1 hreqok
        obtain ⟨h2, t2, ht2⟩ := ih st1 st' h
        refine ⟨Nat.le_trans (Nat.le_of_lt h1) h2, t1 ++ t2, ?_⟩
        rw [ht2, ht1, List.append_assoc]

/-- A successful `require(id)` returns the address `nextAddr` had at entry
(the freshly constructed `exports` object), strictly advances the allocator,
and appends `id` followed by the transitively executed bodies to the
execution log. -/
theorem requireRT_mono (reg : List (Nat × RTModule)) :
    ∀ (fuel id : Nat) (st : RTState) (a : Nat) (st' : RTState),
      requireRT reg fuel id st = .ok (a, st') →
      a = st.nextAddr ∧ st.nextAddr < st'.nextAddr ∧
      ∃ t, st'.execLog = st.execLog ++ id :: t := by
  intro fuel
  induction fuel with
  | zero =>
    intro id st a st' h
    simp [requireRT] at h
  | succ n ih =>
    intro id st a st' h
    simp only [requireRT] at h
    split at h
    · simp at h
    · rename_i m hlook
      split at h
      · simp at h
      · rename_i st2 hrun
        simp only [Except.ok.injEq, Prod.mk.injEq] at h
        obtain ⟨ha, hst⟩ := h
        subst ha; subst hst
        have hreq : ∀ (cid : Nat) (s : RTState) (b : Nat) (s2 : RTState),
            requireRT reg n cid s = .ok (b, s2) →
            s.nextAddr < s2.nextAddr ∧ ∃ t, s2.execLog = s.execLog ++ t := by
          intro cid s b s2 hb
          obtain ⟨_, hlt, t, ht⟩ := ih cid s b s2 hb
          exact ⟨hlt, cid :: t, ht⟩
        have hmono := runRequires_mono (fun cid s => requireRT reg n cid s)
          m.mapping hreq m.requires ⟨st.nextAddr + 1, st.execLog ++ [id]⟩
          st2 hrun
        obtain ⟨hle, t, ht⟩ := hmono
        refine ⟨rfl, ?_, ⟨t, ?_⟩⟩
        · exact Nat.lt_of_lt_of_le (Nat.lt_succ_self _) hle
        · rw [ht, List.append_assoc]
          rfl

end Bundler

namespace Bundler

/-- `List.find?` returns the element at the first index satisfying the
predicate when all earlier indices fail it. -/
theorem find_eq_of_first {α : Type} (q : α → Bool) :
    ∀ (l : List α) (i : Nat) (h : i < l.length),
      q (l.get ⟨i, h⟩) = true →
      (∀ j (hj : j < i), q (l.get ⟨j, Nat.lt_trans hj h⟩) = false) →
      l.find? q = some (l.get ⟨i, h⟩) := by
  intro l
  induction l with
  | nil =>
    intro i h
    exact absurd h (by simp)
  | cons x xs ih =>
    intro i h hq hbefore
    cases i with
    | zero =>
      exact List.find?_cons_of_pos xs hq
    | succ n =>
      have hx : q x = false := hbefore 0 (Nat.succ_pos n)
      rw [List.find?_cons_of_neg xs (by simp [hx])]
      exact ih n (Nat.lt_of_succ_lt_succ h) hq
        (fun j hj => hbefore (j + 1) (Nat.succ_lt_succ hj))

end Bundler

namespace Bundler

/-- On any successful build, the Graph's ids are exactly the consecutive run
starting at the counter value the invocation received, the counter advances
by the number of Assets, and the entry Asset is first with the starting
counter value as id. -/
theorem createGraph_ids (fs : FS) (fuel : Nat) (entry : String) (ctr : Nat)
    (g : List Asset) (ctr' : Nat)
    (h : createGraph fs fuel entry ctr = some (.ok (g, ctr'))) :
    g.map (fun a => a.id) = List.range' ctr g.length ∧
    ctr' = ctr + g.length ∧
    ∃ first others, g = first :: others ∧ first.id = ctr := by
  unfold createGraph at h
  split at h
  · simp at h
  · rename_i main ctr1 hca
    obtain ⟨hid, hc1⟩ := createAsset_ok fs ctr entry main ctr1 hca
    subst hc1
    obtain ⟨⟨k, hmap, hctr⟩, _, _⟩ :=
      graphLoop_spec fs fuel [] [main] (ctr + 1) g ctr' h
    simp only [List.nil_append, List.map_cons, List.map_nil,
      List.cons_append] at hmap
    rw [hid] at hmap
    have hlen : g.length = k + 1 := by
      have hh := congrArg List.length hmap
      simp at hh
      omega
    refine ⟨?_, by omega, ?_⟩
    · rw [hlen, hmap, List.range'_succ]
    · cases g with
      | nil => simp at hlen
      | cons f os =>
        refine ⟨f, os, rfl, ?_⟩
        simp only [List.map_cons, List.cons.injEq] at hmap
        exact hmap.1

/-- On any successful build, the Graph holds exactly one Asset per processed
dependency occurrence, plus the entry: no deduplication by resolved path. -/
theorem createGraph_count (fs : FS) (fuel : Nat) (entry : String) (ctr : Nat)
    (g : List Asset) (ctr' : Nat)
    (h : createGraph fs fuel entry ctr = some (.ok (g, ctr'))) :
    g.length = 1 + (g.map (fun a => a.dependencies.length)).sum := by
  unfold createGraph at h
  split at h
  · simp at h
  · rename_i main ctr1 hca
    have hc := (graphLoop_spec fs fuel [] [main] ctr1 g ctr' h).2.1
    simp at hc
    omega

/-- On any successful build, every Asset of the returned Graph carries a
mapping whose keys match its dependency list. -/
theorem createGraph_mappings (fs : FS) (fuel : Nat) (entry : String)
    (ctr : Nat) (g : List Asset) (ctr' : Nat)
    (h : createGraph fs fuel entry ctr = some (.ok (g, ctr'))) :
    ∀ a ∈ g, mappingMatches a := by
  unfold createGraph at h
  split at h
  · simp at h
  · rename_i main ctr1 hca
    exact (graphLoop_spec fs fuel [] [main] ctr1 g ctr' h).2.2 (by simp)

end Bundler

namespace Bundler

/-! ## Claims -/

/-- Claim C1 counterexample: the process-wide counter `ID` is never reset, so
a second `createGraph` invocation in the same process (receiving the counter
value 1 left by the first) gives its entry Asset id 1, not 0. -/
theorem c1_counterexample :
    createGraph fs1 5 "./entry" 0 = some (.ok ([asset1a], 1)) ∧
    createGraph fs1 5 "./entry" 1 = some (.ok ([asset1b], 2)) ∧
    asset1b.id ≠ 0 :=
  ⟨rfl, rfl, by decide⟩

/-- Claim C1 (amended): for every invocation of `createGraph` receiving
counter value `c`, the resulting Graph's Asset ids are exactly the
consecutive run `c..c+N-1` in creation order with no gaps or repeats, and
the entry Asset comes first and receives id `c`; only an invocation
receiving the initial counter value 0 — the first in a process — yields ids
`0..N-1` with entry id 0. -/
theorem c1_ids_consecutive (fs : FS) (fuel : Nat) (entry : String)
    (ctr : Nat) (g : List Asset) (ctr' : Nat)
    (h : createGraph fs fuel entry ctr = some (.ok (g, ctr'))) :
    g.map (fun a => a.id) = List.range' ctr g.length ∧
    ctr' = ctr + g.length ∧
    ∃ first others, g = first :: others ∧ first.id = ctr :=
  createGraph_ids fs fuel entry ctr g ctr' h

/-- Claim C1 witness: the amended statement evaluated on a concrete first
build, whose single Asset carries id 0. -/
theorem c1_ids_witness :
    createGraph fs1 5 "./entry" 0 = some (.ok ([asset1a], 1)) ∧
    [asset1a].map (fun a => a.id) = List.range' 0 [asset1a].length :=
  ⟨rfl, (c1_ids_consecutive fs1 5 "./entry" 0 [asset1a] 1 rfl).1⟩

/-- Claim C2: whenever the Source Loader cannot obtain a path's content,
`createAsset` fails with the load error for that path; any build error
during traversal propagates out of `createGraph`, so the pipeline yields the
error and no bundle text; concretely, the build whose entry imports an
unresolvable `"./ghost"` aborts with that load error before any bundle text
is produced. -/
theorem c2_load_failure_aborts :
    (∀ (fs : FS) (ctr : Nat) (f : String),
        readFileGuessExtension fs f = none →
        createAsset fs ctr f = .error (.loadError f)) ∧
    (∀ (fs : FS) (fuel : Nat) (entry : String) (ctr : Nat) (e : BuildError),
        createGraph fs fuel entry ctr = some (.error e) →
        buildAndBundle fs fuel entry ctr = some (.error e)) ∧
    createGraph fs2 5 "./entry" 0 = some (.error (.loadError "ghost")) ∧
    buildAndBundle fs2 5 "./entry" 0 = some (.error (.loadError "ghost")) := by
  refine ⟨?_, ?_, rfl, rfl⟩
  · intro fs ctr f hload
    unfold createAsset
    rw [hload]
  · intro fs fuel entry ctr e h
    unfold buildAndBundle
    rw [h]
    rfl

/-- Claim C2 witness: the load-failure and propagation statements evaluated
at the unresolvable path `"ghost"` of the concrete scenario. -/
theorem c2_witness :
    readFileGuessExtension fs2 "ghost" = none ∧
    createAsset fs2 1 "ghost" = .error (.loadError "ghost") ∧
    buildAndBundle fs2 5 "./entry" 0 = some (.error (.loadError "ghost")) :=
  ⟨rfl, c2_load_failure_aborts.1 fs2 1 "ghost" rfl,
    c2_load_failure_aborts.2.1 fs2 5 "./entry" 0 (.loadError "ghost") rfl⟩

/-- Claim C3: on the scenario where the entry imports `"./a"` which imports
`"./b"`, the FIFO traversal returns exactly three Assets entry-first with
ids 0, 1, 2 in discovery order; each child's filename is the relative-path
join of its specifier against the importing Asset's dirname; Asset 0's
mapping is `{"./a": 1}` and Asset 1's is `{"./b": 2}`. -/
theorem c3_fifo_scenario :
    createGraph fs3 10 "./entry" 0 = some (.ok ([g3e, g3a, g3b], 3)) ∧
    [g3e, g3a, g3b].map (fun a => a.id) = [0, 1, 2] ∧
    g3e.id = 0 ∧ g3e.filename = "./entry" ∧
    g3a.filename = pathJoin (pathDirname g3e.filename) "./a" ∧
    g3b.filename = pathJoin (pathDirname g3a.filename) "./b" ∧
    g3e.mapping = some [("./a", 1)] ∧ g3a.mapping = some [("./b", 2)] :=
  ⟨rfl, rfl, rfl, rfl, rfl, rfl, rfl, rfl⟩

/-- Claim C4: traversal is never deduplicated by resolved path — every
successful build returns one Asset per dependency occurrence plus the entry,
all with distinct ids; in the diamond scenario the two specifiers reaching
file `c` yield two separate Assets with distinct ids 3 and 4 and each its
own transformed code body. -/
theorem c4_no_dedup :
    (∀ (fs : FS) (fuel : Nat) (entry : String) (ctr : Nat) (g : List Asset)
        (ctr' : Nat),
        createGraph fs fuel entry ctr = some (.ok (g, ctr')) →
        g.length = 1 + (g.map (fun a => a.dependencies.length)).sum ∧
        (g.map (fun a => a.id)).Nodup) ∧
    createGraph fs4 10 "./entry" 0 = some (.ok (g4list, 5)) ∧
    g4c1.filename = g4c2.filename ∧ g4c1.id ≠ g4c2.id ∧
    g4c1.code = babelTransform astC4 ∧ g4c2.code = babelTransform astC4 ∧
    g4list.length = 5 := by
  refine ⟨?_, rfl, rfl, by decide, rfl, rfl, rfl⟩
  intro fs fuel entry ctr g ctr' h
  refine ⟨createGraph_count fs fuel entry ctr g ctr' h, ?_⟩
  obtain ⟨hmap, _, _⟩ := createGraph_ids fs fuel entry ctr g ctr' h
  rw [hmap]
  exact List.nodup_range' ctr g.length

/-- Claim C4 witness: the no-deduplication count evaluated on the concrete
diamond build (5 Assets for 4 dependency occurrences plus the entry). -/
theorem c4_witness :
    createGraph fs4 10 "./entry" 0 = some (.ok (g4list, 5)) ∧
    g4list.length = 1 + (g4list.map (fun a => a.dependencies.length)).sum :=
  ⟨rfl, (c4_no_dedup.1 fs4 10 "./entry" 0 g4list 5 rfl).1⟩

/-- Claim C5: every Asset of a completed Graph has its mapping set, with the
mapping's key set equal to the set of strings in its dependency list and
each key bound once. -/
theorem c5_mapping_keys (fs : FS) (fuel : Nat) (entry : String) (ctr : Nat)
    (g : List Asset) (ctr' : Nat)
    (h : createGraph fs fuel entry ctr = some (.ok (g, ctr'))) :
    ∀ a ∈ g, mappingMatches a :=
  createGraph_mappings fs fuel entry ctr g ctr' h

/-- Claim C5 witness: the mapping-key property evaluated on the concrete
chain build's entry Asset. -/
theorem c5_witness :
    createGraph fs3 10 "./entry" 0 = some (.ok ([g3e, g3a, g3b], 3)) ∧
    mappingMatches g3e :=
  ⟨rfl, c5_mapping_keys fs3 10 "./entry" 0 [g3e, g3a, g3b] 3 rfl g3e
    (by simp)⟩

/-- Claim C6: the Bundle Emitter is a pure function of the Graph — in this
embedding `bundle` consults no state besides its Graph argument, so two
emissions of the same Graph produce byte-identical text. -/
theorem c6_bundle_deterministic :
    ∀ graph : List Asset, bundle graph = bundle graph :=
  fun _ => rfl

/-- Claim C7: the emitted loader caches nothing — two successive successful
`require` calls on the same module id return distinct (fresh) exports
objects, the second being the allocator's fresh address at the time of the
call, and the second call re-executes the module's body (appending its id to
the execution log again). -/
theorem c7_require_no_cache (reg : List (Nat × RTModule)) (fuel id : Nat)
    (st st1 st2 : RTState) (a1 a2 : Nat)
    (h1 : requireRT reg fuel id st = .ok (a1, st1))
    (h2 : requireRT reg fuel id st1 = .ok (a2, st2)) :
    a1 ≠ a2 ∧ a2 = st1.nextAddr ∧
    ∃ t, st2.execLog = st1.execLog ++ id :: t := by
  obtain ⟨ha1, hlt1, _⟩ := requireRT_mono reg fuel id st a1 st1 h1
  obtain ⟨ha2, hlt2, hlog⟩ := requireRT_mono reg fuel id st1 a2 st2 h2
  subst ha1; subst ha2
  exact ⟨Nat.ne_of_lt hlt1, rfl, hlog⟩

/-- Claim C7 witness: running the chain scenario's bundle entry module twice
from the runtime's initial state returns exports addresses 0 and then 3, and
executes all three module bodies afresh on the second call. -/
theorem c7_witness :
    requireRT reg3 5 0 ⟨0, []⟩ = .ok (0, ⟨3, [0, 1, 2]⟩) ∧
    requireRT reg3 5 0 ⟨3, [0, 1, 2]⟩ = .ok (3, ⟨6, [0, 1, 2, 0, 1, 2]⟩) ∧
    (0 : Nat) ≠ 3 :=
  ⟨rfl, rfl,
    (c7_require_no_cache reg3 5 0 ⟨0, []⟩ ⟨3, [0, 1, 2]⟩
      ⟨6, [0, 1, 2, 0, 1, 2]⟩ 0 3 rfl rfl).1⟩

/-- Claim C8: a `require` call on a specifier absent from the calling
module's own mapping fails only when the emitted bundle is executed — the
loader throws its lookup error — and never at build time: the concrete build
whose entry body hand-writes `require("./ghost")` (no import declaration)
completes the graph and produces bundle text, while executing the bundle
yields the lookup error. -/
theorem c8_runtime_not_build_time :
    (∀ (reg : List (Nat × RTModule)) (fuel id : Nat) (st : RTState)
        (m : RTModule) (s : String) (rest : List String),
        lookupModule reg id = some m → m.requires = s :: rest →
        jsLookup m.mapping s = none →
        requireRT reg (fuel + 1) id st = .error .lookupError) ∧
    createGraph fs8 5 "./entry" 0 = some (.ok ([g8e], 1)) ∧
    buildAndBundle fs8 5 "./entry" 0 = some (.ok (bundle [g8e])) ∧
    runBundle reg8 5 = .error .lookupError := by
  refine ⟨?_, rfl, rfl, rfl⟩
  intro reg fuel id st m s rest hlook hreq hjs
  simp only [requireRT, hlook, hreq, runRequires, hjs]

/-- Claim C8 witness: the runtime-lookup failure applied to the concrete
registry whose module 0 requires the unmapped `"./ghost"`. -/
theorem c8_witness :
    lookupModule reg8 0 = some m8 ∧
    requireRT reg8 (4 + 1) 0 ⟨0, []⟩ = .error .lookupError :=
  ⟨rfl, c8_runtime_not_build_time.1 reg8 4 0 ⟨0, []⟩ m8 "./ghost" [] rfl rfl
    rfl⟩

/-- Claim C9 counterexample: a readable directory whose listing contains the
matching entry `a.js` for base name `a`, yet the loader reports `null`
because that entry cannot be read as a file — the claim's "null exactly when
the directory is unreadable or no match exists" fails here. -/
theorem c9_counterexample :
    readFileGuessExtension fsC9 "./a" = none ∧
    FS.readdir fsC9 (pathDirname "./a") = some ["a.js"] ∧
    startsWithName "a.js" (parseBase "./a") = true :=
  ⟨rfl, rfl, rfl⟩

/-- Claim C9 (amended): with the listing obtainable, the loader returns the
result of reading the first listed entry whose name begins with the path's
base — so `null` also when that entry itself is unreadable — and when no
entry matches it reads the file literally named `undefined` in that
directory (returning its content if such a file exists, `null` otherwise);
`null` is certain when the directory is unreadable. -/
theorem c9_loader_first_match :
    (∀ (fs : FS) (p : String), FS.readdir fs (pathDirname p) = none →
        readFileGuessExtension fs p = none) ∧
    (∀ (fs : FS) (p : String) (files : List String) (i : Nat)
        (h : i < files.length),
        FS.readdir fs (pathDirname p) = some files →
        startsWithName (files.get ⟨i, h⟩) (parseBase p) = true →
        (∀ j (hj : j < i),
          startsWithName (files.get ⟨j, Nat.lt_trans hj h⟩) (parseBase p)
            = false) →
        readFileGuessExtension fs p
          = FS.readFile fs (pathDirname p ++ "/" ++ files.get ⟨i, h⟩)) ∧
    (∀ (fs : FS) (p : String) (files : List String),
        FS.readdir fs (pathDirname p) = some files →
        (∀ f ∈ files, startsWithName f (parseBase p) = false) →
        readFileGuessExtension fs p
          = FS.readFile fs (pathDirname p ++ "/" ++ "undefined")) := by
  refine ⟨?_, ?_, ?_⟩
  · intro fs p hdir
    unfold readFileGuessExtension
    rw [hdir]
  · intro fs p files i h hdir hq hbefore
    have hfind := find_eq_of_first (fun x => startsWithName x (parseBase p))
      files i h hq hbefore
    unfold readFileGuessExtension
    simp only [hdir, hfind]
  · intro fs p files hdir hnone
    have hfind : files.find? (fun x => startsWithName x (parseBase p))
        = none :=
      List.find?_eq_none.2 (fun x hx => by simp [hnone x hx])
    unfold readFileGuessExtension
    simp only [hdir, hfind]

/-- Claim C9 witness: the first-match case evaluated on the chain scenario's
directory, where `a.js` is the first entry matching base name `a`. -/
theorem c9_witness :
    FS.readdir fs3 (pathDirname "./a") = some ["entry.js", "a.js", "b.js"] ∧
    readFileGuessExtension fs3 "./a"
      = FS.readFile fs3 (pathDirname "./a" ++ "/" ++ "a.js") :=
  ⟨rfl, c9_loader_first_match.2.1 fs3 "./a" ["entry.js", "a.js", "b.js"] 1
    (by decide) rfl rfl
    (fun j hj => by
      cases j with
      | zero => rfl
      | succ n => omega)⟩

set_option maxRecDepth 100000 in
/-- Claim C10: when the entry lists the same specifier `"./a"` twice, the
build creates and enqueues a fresh child per occurrence (ids 1 and 2), the
entry's mapping records only the id of the last occurrence's child, the
first child remains in the Graph and its registry entry is embedded in the
emitted bundle text, yet no Asset's mapping contains its id 1. -/
theorem c10_duplicate_specifiers :
    createGraph fsA 10 "./entry" 0 = some (.ok ([gAe, gA1, gA2], 3)) ∧
    gAe.dependencies = ["./a", "./a"] ∧
    gAe.mapping = some [("./a", 2)] ∧ gA1.id = 1 ∧ gA2.id = 2 ∧
    (∃ pre post, bundle [gAe, gA1, gA2] = pre ++ moduleChunk gA1 ++ post) ∧
    (∀ a ∈ [gAe, gA1, gA2], ∀ q ∈ a.mapping.getD [], q.2 ≠ 1) := by
  refine ⟨rfl, rfl, rfl, rfl, rfl,
    ⟨bundleHead ++ moduleChunk gAe, moduleChunk gA2 ++ bundleTail, ?_⟩, ?_⟩
  · rfl
  · intro a ha q hq
    simp only [List.mem_cons, List.not_mem_nil, or_false] at ha
    rcases ha with rfl | rfl | rfl
    · simp only [gAe, Option.getD_some, List.mem_singleton] at hq
      subst hq
      decide
    · simp only [gA1, Option.getD_some, List.not_mem_nil] at hq
    · simp only [gA2, gA1, Option.getD_some, List.not_mem_nil] at hq

end Bundler
